import Mathlib

/-!
Verification of the PL011 UART driver (theseus-os/pl011, `src/lib.rs`).

The driver operates on a memory-mapped register block (`PL011_Regs`) and
exposes polling-based byte I/O.  We embed:

* the register layout (field order, word sizes, access modes) of the
  `#[repr(C)]` struct `PL011_Regs`, from which byte/word offsets follow
  by summation (all fields are `u32`, so there is no padding);
* the register state as a structure of natural-number register values,
  together with an access-trace semantics: each driver operation is a
  pure function that returns its result and the ordered list of register
  accesses (reads and writes) it performs;
* hardware asynchrony as an environment `env : Nat → Regs` giving the
  register-block contents observed by the i-th *read* access; spinning
  loops take fuel and return `none` when the flag never comes true
  within the fuel (modelling non-termination).
-/

namespace PL011

/-- Hardware access mode of a register, mirroring the
`volatile_register` wrapper types `RO`, `WO`, `RW` used in `PL011_Regs`. -/
inductive Mode where
  | ro
  | wo
  | rw
deriving DecidableEq, Repr

/-- Does the access mode expose a read operation? (`RO` and `RW` do.) -/
def Mode.readable : Mode → Bool
  | .ro => true
  | .wo => false
  | .rw => true

/-- Does the access mode expose a write operation? (`WO` and `RW` do.) -/
def Mode.writable : Mode → Bool
  | .ro => false
  | .wo => true
  | .rw => true

/-- One field of the `#[repr(C)]` struct `PL011_Regs`: its name, its size
in 32-bit words, and its access mode (`none` for the private reserved
padding fields, which expose no access at all). -/
structure LayoutField where
  name : String
  words : Nat
  mode : Option Mode
deriving DecidableEq, Repr

/-- The fields of `PL011_Regs` in declaration order, with sizes in 32-bit
words and `volatile_register` access modes, transcribed from the struct
definition in `src/lib.rs`. -/
def pl011_layout : List LayoutField :=
  [⟨"uartdr", 1, some .rw⟩,
   ⟨"uartrsr", 1, some .rw⟩,
   ⟨"reserved0", 4, none⟩,
   ⟨"uartfr", 1, some .ro⟩,
   ⟨"reserved1", 1, none⟩,
   ⟨"uartilpr", 1, some .rw⟩,
   ⟨"uartibrd", 1, some .rw⟩,
   ⟨"uartfbrd", 1, some .rw⟩,
   ⟨"uartlcr_h", 1, some .rw⟩,
   ⟨"uartcr", 1, some .rw⟩,
   ⟨"uartifls", 1, some .rw⟩,
   ⟨"uartimsc", 1, some .rw⟩,
   ⟨"uartris", 1, some .ro⟩,
   ⟨"uartmis", 1, some .ro⟩,
   ⟨"uarticr", 1, some .wo⟩,
   ⟨"uartdmacr", 1, some .rw⟩,
   ⟨"reserved2", 997, none⟩,
   ⟨"uartperiphid0", 1, some .ro⟩,
   ⟨"uartperiphid1", 1, some .ro⟩,
   ⟨"uartperiphid2", 1, some .ro⟩,
   ⟨"uartperiphid3", 1, some .ro⟩,
   ⟨"uartpcellid0", 1, some .ro⟩,
   ⟨"uartpcellid1", 1, some .ro⟩,
   ⟨"uartpcellid2", 1, some .ro⟩,
   ⟨"uartpcellid3", 1, some .ro⟩]

/-- Word offset of a named field in a `#[repr(C)]` layout whose fields
are all (arrays of) `u32`: the sum of the word sizes of the fields
declared before it. -/
def offsetOf (fs : List LayoutField) (n : String) : Option Nat :=
  match fs with
  | [] => none
  | f :: rest =>
    if f.name = n then some 0
    else (offsetOf rest n).map (fun o => f.words + o)

/-- Access mode of a named field of the layout. -/
def modeOf (fs : List LayoutField) (n : String) : Option (Option Mode) :=
  match fs with
  | [] => none
  | f :: rest => if f.name = n then some f.mode else modeOf rest n

/-- Word size of a named field of the layout. -/
def wordsOf (fs : List LayoutField) (n : String) : Option Nat :=
  match fs with
  | [] => none
  | f :: rest => if f.name = n then some f.words else wordsOf rest n

/-- Total size of the layout in 32-bit words. -/
def layoutWords (fs : List LayoutField) : Nat :=
  (fs.map LayoutField.words).sum

/-- The contents of one PL011 register block: the value of every named
register (each a `u32`, modelled as `Nat`; theorems constrain the fields
that matter to `< 2 ^ 32` where relevant).  Reserved padding words hold
no architected state and are omitted. -/
structure Regs where
  uartdr : Nat
  uartrsr : Nat
  uartfr : Nat
  uartilpr : Nat
  uartibrd : Nat
  uartfbrd : Nat
  uartlcr_h : Nat
  uartcr : Nat
  uartifls : Nat
  uartimsc : Nat
  uartris : Nat
  uartmis : Nat
  uarticr : Nat
  uartdmacr : Nat
  uartperiphid0 : Nat
  uartperiphid1 : Nat
  uartperiphid2 : Nat
  uartperiphid3 : Nat
  uartpcellid0 : Nat
  uartpcellid1 : Nat
  uartpcellid2 : Nat
  uartpcellid3 : Nat
deriving DecidableEq, Repr

/-- The all-zero register block, convenient for concrete witnesses. -/
def Regs.zero : Regs :=
  ⟨0, 0, 0, 0, 0, 0, 0, 0, 0, 0, 0, 0, 0, 0, 0, 0, 0, 0, 0, 0, 0, 0⟩

/-- Names of the registers a driver access can target. -/
inductive RegName where
  | uartdr
  | uartrsr
  | uartfr
  | uartilpr
  | uartibrd
  | uartfbrd
  | uartlcr_h
  | uartcr
  | uartifls
  | uartimsc
  | uartris
  | uartmis
  | uarticr
  | uartdmacr
deriving DecidableEq, Repr

/-- One register access performed by the driver: a read of a register,
or a write of a value to a register. -/
inductive Access where
  | read (r : RegName)
  | write (r : RegName) (v : Nat)
deriving DecidableEq, Repr

/-- Is this access a write? -/
def Access.isWrite : Access → Bool
  | .write _ _ => true
  | .read _ => false

/-- Effect of a single access on the register block: a write stores its
value in the named register, a read changes nothing. -/
def applyAccess (r : Regs) : Access → Regs
  | .read _ => r
  | .write .uartdr v => { r with uartdr := v }
  | .write .uartrsr v => { r with uartrsr := v }
  | .write .uartfr v => { r with uartfr := v }
  | .write .uartilpr v => { r with uartilpr := v }
  | .write .uartibrd v => { r with uartibrd := v }
  | .write .uartfbrd v => { r with uartfbrd := v }
  | .write .uartlcr_h v => { r with uartlcr_h := v }
  | .write .uartcr v => { r with uartcr := v }
  | .write .uartifls v => { r with uartifls := v }
  | .write .uartimsc v => { r with uartimsc := v }
  | .write .uartris v => { r with uartris := v }
  | .write .uartmis v => { r with uartmis := v }
  | .write .uarticr v => { r with uarticr := v }
  | .write .uartdmacr v => { r with uartdmacr := v }

/-- Effect of an access trace on the register block, applied in order. -/
def applyTrace (r : Regs) (tr : List Access) : Regs :=
  tr.foldl applyAccess r

/-- `PL011::has_incoming_data`: reads `uartfr` and tests
`uartfr & 0x10 == 0` (receive-FIFO-empty flag clear). -/
def has_incoming_data (r : Regs) : Bool :=
  r.uartfr &&& 0x10 == 0

/-- `PL011::is_writeable`: reads `uartfr` and tests
`uartfr & 0x20 == 0` (transmit-FIFO-full flag clear). -/
def is_writeable (r : Regs) : Bool :=
  r.uartfr &&& 0x20 == 0

/-- The error type of the `nb`-style non-blocking operations:
`wouldBlock` is `nb::Error::WouldBlock`; `other` is `nb::Error::Other`
carrying the driver's (dataless) `Error` struct. -/
inductive NbError where
  | wouldBlock
  | other
deriving DecidableEq, Repr

/-- `serial::Read::read`: if `has_incoming_data` then
`Ok(uartdr.read() & 0xff as u8)` else `Err(WouldBlock)`.  Returns the
result together with the trace of register accesses performed. -/
def serial_read (r : Regs) : Except NbError Nat × List Access :=
  if has_incoming_data r then
    (.ok (r.uartdr &&& 0xff), [.read .uartfr, .read .uartdr])
  else
    (.error .wouldBlock, [.read .uartfr])

/-- `serial::Write::flush`: `Ok(())` if `is_writeable`, else
`Err(WouldBlock)`. -/
def serial_flush (r : Regs) : Except NbError Unit × List Access :=
  if is_writeable r then
    (.ok (), [.read .uartfr])
  else
    (.error .wouldBlock, [.read .uartfr])

/-- `serial::Write::write`: runs `flush()?` and then writes the byte
(`word as u32`, a zero extension) to `uartdr`. -/
def serial_write (r : Regs) (b : Nat) : Except NbError Unit × List Access :=
  match serial_flush r with
  | (.ok _, tr) => (.ok (), tr ++ [.write .uartdr b])
  | (.error e, tr) => (.error e, tr)

/-!
Spinning operations.  Hardware may change the register block between
accesses, so a spinning operation is parameterised by an environment
`env : Nat → Regs`: `env i` is the block contents observed by the i-th
*read* access (writes target the block and consume no environment
index).  `fuel` bounds the number of loop iterations; `none` models the
loop never exiting within the fuel.  Each operation returns its result,
the ordered access trace, and the next free read index.
-/

/-- `PL011::read_byte`: `while !self.has_incoming_data() {}` then
`uartdr.read() & 0xff`.  Each loop iteration reads `uartfr` once; after
the loop exits the data register is read once. -/
def read_byte (env : Nat → Regs) : Nat → Nat → Option (Nat × List Access × Nat)
  | 0, _ => none
  | fuel + 1, i =>
    if has_incoming_data (env i) then
      some ((env (i + 1)).uartdr &&& 0xff, [.read .uartfr, .read .uartdr], i + 2)
    else
      (read_byte env fuel (i + 1)).map fun x => (x.1, Access.read .uartfr :: x.2.1, x.2.2)

/-- `PL011::write_byte`: `while !self.is_writeable() {}` then
`uartdr.write(data as u32)`.  Each loop iteration reads `uartfr` once;
after the loop exits the byte is written to the data register. -/
def write_byte (env : Nat → Regs) (b : Nat) : Nat → Nat → Option (List Access × Nat)
  | 0, _ => none
  | fuel + 1, i =>
    if is_writeable (env i) then
      some ([.read .uartfr, .write .uartdr b], i + 1)
    else
      (write_byte env b fuel (i + 1)).map fun x => (Access.read .uartfr :: x.1, x.2)

/-- `nb::block!(self.write(b))`: retry `serial_write` while it returns
`WouldBlock`; stop on `Ok` or on any other error. -/
def block_write (env : Nat → Regs) (b : Nat) :
    Nat → Nat → Option (Except NbError Unit × List Access × Nat)
  | 0, _ => none
  | fuel + 1, i =>
    match serial_write (env i) b with
    | (.ok _, tr) => some (.ok (), tr, i + 1)
    | (.error .wouldBlock, tr) =>
      (block_write env b fuel (i + 1)).map fun x => (x.1, tr ++ x.2.1, x.2.2)
    | (.error .other, tr) => some (.error .other, tr, i + 1)

/-- `fmt::Write::write_str`: for each byte of the string, run
`nb::block!(self.write(*b))`; if that yields an error, stop and return
`fmt::Error` (modelled as the boolean `false`); otherwise return `Ok`
(`true`).  `fuel` bounds each per-byte wait. -/
def write_str (env : Nat → Regs) (fuel : Nat) :
    List Nat → Nat → Option (Bool × List Access × Nat)
  | [], i => some (true, [], i)
  | b :: bs, i =>
    match block_write env b fuel i with
    | none => none
    | some (.ok _, tr, j) =>
      (write_str env fuel bs j).map fun x => (x.1, tr ++ x.2.1, x.2.2)
    | some (.error _, tr, j) => some (false, tr, j)

/-- `n` sequential calls of `PL011::write_byte`, one per byte, in
order: the reference behaviour `write_bytes` is compared against. -/
def write_bytes (env : Nat → Regs) (fuel : Nat) :
    List Nat → Nat → Option (List Access × Nat)
  | [], i => some ([], i)
  | b :: bs, i =>
    match write_byte env b fuel i with
    | none => none
    | some (tr, j) =>
      (write_bytes env fuel bs j).map fun x => (tr ++ x.1, x.2)

/-- The driver handle: `PL011 { regs: &'static mut PL011_Regs }`,
modelled as the base address its register reference points at. -/
structure Driver where
  base : Nat
deriving DecidableEq, Repr

/-- `<*mut T>::as_mut`: `None` exactly when the pointer is null,
otherwise a reference to the pointee (modelled by its address). -/
def ptr_as_mut (addr : Nat) : Option Nat :=
  if addr = 0 then none else some addr

/-- `PL011::new(regs)`: `regs.as_mut().unwrap()` — `unwrap` panics
(modelled as `none`) when `as_mut` is `None`, i.e. exactly on a null
pointer; otherwise the driver stores the reference.  No register access
is performed, so the trace component is `[]`. -/
def new (addr : Nat) : Option Driver × List Access :=
  (match ptr_as_mut addr with
   | none => none
   | some a => some ⟨a⟩, [])

/-- Modelled from the spec: `read_bytes` is absent from `src/lib.rs`
(the spec merges a second source variant that has it).  Per the spec it
"fills the given buffer one byte at a time via `read_byte`, but stops —
without blocking — as soon as `has_incoming_data` reports false or the
buffer is full; returns the number of bytes actually read".  The
hardware FIFO is modelled as the list of pending bytes (so
`has_incoming_data` is "FIFO nonempty" and `read_byte` pops the head);
the buffer is a list of cells.  Returns the buffer after the call and
the count. -/
def read_bytes (fifo buf : List Nat) : List Nat × Nat :=
  match fifo, buf with
  | [], _ => (buf, 0)
  | _, [] => ([], 0)
  | b :: fifo', _ :: buf' =>
    let x := read_bytes fifo' buf'
    (b :: x.1, x.2 + 1)

/-- Modelled from the spec: a loopback-configured peripheral.  A value
written to the data register becomes readable (it stays in `uartdr`)
and the data-available flag is set, i.e. the receive-FIFO-empty bit
(bit 4) of `uartfr` is cleared; every other access behaves as
`applyAccess`. -/
def loopbackApply (r : Regs) : Access → Regs
  | .write .uartdr v =>
    { r with uartdr := v, uartfr := r.uartfr &&& 0xFFFFFFEF }
  | a => applyAccess r a

/-! Shared lemmas. -/

theorem land_two_pow_eq_zero_iff (n i : Nat) :
    n &&& 2 ^ i = 0 ↔ n / 2 ^ i % 2 = 0 := by
  rw [Nat.and_two_pow]
  have hd := Nat.testBit_to_div_mod (x := n) (i := i)
  have hpos : 0 < 2 ^ i := Nat.pos_pow_of_pos i (by omega)
  cases hb : n.testBit i with
  | false =>
    rw [hb] at hd
    have hne : ¬ (n / 2 ^ i % 2 = 1) := by simpa using hd.symm
    have h2 := Nat.mod_two_eq_zero_or_one (n / 2 ^ i)
    have h0 : n / 2 ^ i % 2 = 0 := by
      rcases h2 with h2 | h2
      · exact h2
      · exact absurd h2 hne
    simp [h0]
  | true =>
    rw [hb] at hd
    have h1 : n / 2 ^ i % 2 = 1 := by simpa using hd.symm
    simp [h1, Nat.pos_iff_ne_zero.mp hpos]

theorem land_ff_eq_mod (n : Nat) : n &&& 0xff = n % 256 := by
  have h : (0xff : Nat) = 2 ^ 8 - 1 := by norm_num
  rw [h, Nat.and_pow_two_sub_one_eq_mod]

theorem applyAccess_read (r : Regs) (x : RegName) :
    applyAccess r (.read x) = r := rfl

theorem applyTrace_replicate_read (r : Regs) (x : RegName) :
    ∀ n, applyTrace r (List.replicate n (Access.read x)) = r := by
  intro n
  induction n with
  | zero => rfl
  | succ n ih =>
    rw [List.replicate_succ]
    simpa [applyTrace, List.foldl_cons, applyAccess_read] using ih

theorem applyTrace_append (r : Regs) (t1 t2 : List Access) :
    applyTrace r (t1 ++ t2) = applyTrace (applyTrace r t1) t2 := by
  simp [applyTrace, List.foldl_append]

theorem filter_isWrite_replicate_read (x : RegName) :
    ∀ n, (List.replicate n (Access.read x)).filter Access.isWrite = [] := by
  intro n
  induction n with
  | zero => rfl
  | succ n ih =>
    rw [List.replicate_succ]
    simp [List.filter_cons, Access.isWrite, ih]

theorem count_dr_replicate_fr :
    ∀ n, (List.replicate n (Access.read RegName.uartfr)).count
      (Access.read RegName.uartdr) = 0 := by
  intro n
  induction n with
  | zero => rfl
  | succ n ih =>
    rw [List.replicate_succ]
    have hbe : (Access.read RegName.uartdr == Access.read RegName.uartfr) = false := rfl
    simp [List.count_cons, hbe, ih]

/-- Unfolding of `read_byte` at the first poll index where the flag
holds: `k` failed polls, one successful poll, one data-register read. -/
theorem read_byte_eq (env : Nat → Regs) (k : Nat) :
    ∀ fuel i, k < fuel →
      (∀ j, j < k → has_incoming_data (env (i + j)) = false) →
      has_incoming_data (env (i + k)) = true →
      read_byte env fuel i =
        some ((env (i + k + 1)).uartdr &&& 0xff,
          List.replicate (k + 1) (Access.read .uartfr) ++ [Access.read .uartdr],
          i + k + 2) := by
  induction k with
  | zero =>
    intro fuel i hf _h0 hk
    cases fuel with
    | zero => omega
    | succ fuel =>
      simp only [Nat.add_zero] at hk
      simp [read_byte, hk, List.replicate_succ]
  | succ k ih =>
    intro fuel i hf h0 hk
    cases fuel with
    | zero => omega
    | succ fuel =>
      have hfi : has_incoming_data (env i) = false := by
        have h := h0 0 (by omega)
        simpa using h
      have hrec := ih fuel (i + 1) (by omega)
        (fun j hj => by
          have h := h0 (j + 1) (by omega)
          have e : i + (j + 1) = i + 1 + j := by omega
          rwa [e] at h)
        (by
          have e : i + (k + 1) = i + 1 + k := by omega
          rwa [e] at hk)
      rw [show i + 1 + k + 1 = i + (k + 1) + 1 from by omega,
          show i + 1 + k + 2 = i + (k + 1) + 2 from by omega] at hrec
      simp [read_byte, hfi, hrec, List.replicate_succ]

/-- Unfolding of `write_byte` at the first poll index where the flag
holds: `k` failed polls, one successful poll, one data-register
write. -/
theorem write_byte_eq (env : Nat → Regs) (b k : Nat) :
    ∀ fuel i, k < fuel →
      (∀ j, j < k → is_writeable (env (i + j)) = false) →
      is_writeable (env (i + k)) = true →
      write_byte env b fuel i =
        some (List.replicate (k + 1) (Access.read .uartfr) ++
          [Access.write .uartdr b], i + k + 1) := by
  induction k with
  | zero =>
    intro fuel i hf _h0 hk
    cases fuel with
    | zero => omega
    | succ fuel =>
      simp only [Nat.add_zero] at hk
      simp [write_byte, hk, List.replicate_succ]
  | succ k ih =>
    intro fuel i hf h0 hk
    cases fuel with
    | zero => omega
    | succ fuel =>
      have hfi : is_writeable (env i) = false := by
        have h := h0 0 (by omega)
        simpa using h
      have hrec := ih fuel (i + 1) (by omega)
        (fun j hj => by
          have h := h0 (j + 1) (by omega)
          have e : i + (j + 1) = i + 1 + j := by omega
          rwa [e] at h)
        (by
          have e : i + (k + 1) = i + 1 + k := by omega
          rwa [e] at hk)
      rw [show i + 1 + k + 1 = i + (k + 1) + 1 from by omega] at hrec
      simp [write_byte, hfi, hrec, List.replicate_succ]

/-- One pass of `nb::block!(self.write(b))` equals `PL011::write_byte`:
both poll `uartfr` once per iteration and finish with a single
data-register write, producing identical traces and indices. -/
theorem block_write_eq (env : Nat → Regs) (b : Nat) :
    ∀ fuel i, block_write env b fuel i =
      (write_byte env b fuel i).map fun x => (Except.ok (), x.1, x.2) := by
  intro fuel
  induction fuel with
  | zero => intro i; rfl
  | succ fuel ih =>
    intro i
    by_cases hw : is_writeable (env i) = true
    · simp [block_write, write_byte, serial_write, serial_flush, hw]
    · have hw' : is_writeable (env i) = false := by simpa using hw
      simp only [block_write, write_byte, serial_write, serial_flush, hw',
        Bool.false_eq_true, if_false, ih]
      cases h : write_byte env b fuel (i + 1) with
      | none => rfl
      | some x => rfl

/-- `fmt::Write::write_str` equals the sequence of `write_byte` calls
(`write_bytes`), byte for byte, and always reports success. -/
theorem write_str_eq (env : Nat → Regs) (fuel : Nat) :
    ∀ bs i, write_str env fuel bs i =
      (write_bytes env fuel bs i).map fun x => (true, x.1, x.2) := by
  intro bs
  induction bs with
  | nil => intro i; rfl
  | cons b bs ih =>
    intro i
    simp only [write_str, write_bytes, block_write_eq]
    cases h : write_byte env b fuel i with
    | none => rfl
    | some x =>
      simp only [Option.map_some', ih x.2]
      cases h2 : write_bytes env fuel bs x.2 with
      | none => rfl
      | some y => rfl

/-- `read_bytes` fills exactly one buffer cell per FIFO byte. -/
theorem read_bytes_length (fifo : List Nat) :
    ∀ buf, (read_bytes fifo buf).1.length = buf.length := by
  induction fifo with
  | nil => intro buf; cases buf <;> rfl
  | cons b fifo ih =>
    intro buf
    cases buf with
    | nil => rfl
    | cons c buf => simp [read_bytes, ih buf]

/-- `read_bytes` reports as many bytes as were both pending and
requested. -/
theorem read_bytes_count (fifo : List Nat) :
    ∀ buf, (read_bytes fifo buf).2 = min fifo.length buf.length := by
  induction fifo with
  | nil => intro buf; simp [read_bytes]
  | cons b fifo ih =>
    intro buf
    cases buf with
    | nil => simp [read_bytes]
    | cons c buf =>
      simp [read_bytes, ih buf]
      omega

/-- The prefix of the buffer filled by `read_bytes` is the FIFO
contents, provided the buffer is long enough. -/
theorem read_bytes_take (fifo : List Nat) :
    ∀ buf : List Nat, fifo.length ≤ buf.length →
      (read_bytes fifo buf).1.take fifo.length = fifo := by
  induction fifo with
  | nil => intro buf _; cases buf <;> rfl
  | cons b fifo ih =>
    intro buf hlen
    cases buf with
    | nil => simp at hlen
    | cons c buf =>
      simp only [read_bytes, List.length_cons, List.take_succ_cons]
      simp only [List.length_cons] at hlen
      rw [ih buf (by omega)]

/-- The part of the buffer beyond the FIFO contents is untouched by
`read_bytes`. -/
theorem read_bytes_drop (fifo : List Nat) :
    ∀ buf : List Nat,
      (read_bytes fifo buf).1.drop fifo.length = buf.drop fifo.length := by
  induction fifo with
  | nil => intro buf; cases buf <;> rfl
  | cons b fifo ih =>
    intro buf
    cases buf with
    | nil => simp [read_bytes]
    | cons c buf =>
      simp only [read_bytes, List.length_cons, List.drop_succ_cons]
      exact ih buf

end PL011

set_option maxRecDepth 8000 in
/-- C1: the `#[repr(C)]` register map places every register at the
hardware-mandated word offset from the base address — data at 0,
receive-status/error-clear at 1, reserved words 2–5, flags at 6,
reserved at 7, IrDA low-power counter at 8, integer and fractional baud
divisors at 9 and 10, line control at 11, control at 12, interrupt FIFO
level select at 13, interrupt mask set/clear at 14, raw and masked
interrupt status at 15 and 16, interrupt clear at 17, DMA control at
18, a 997-word reserved gap at 19, then the four peripheral-ID
registers at 1016–1019 and the four PCell-ID registers at 1020–1023 —
and the read-only fields (flags, raw/masked interrupt status, all ID
registers) expose no write operation while the write-only
interrupt-clear field exposes no read operation. -/
theorem PL011.layout_matches_hardware_map :
    PL011.offsetOf PL011.pl011_layout "uartdr" = some 0 ∧
    PL011.offsetOf PL011.pl011_layout "uartrsr" = some 1 ∧
    PL011.offsetOf PL011.pl011_layout "reserved0" = some 2 ∧
    PL011.wordsOf PL011.pl011_layout "reserved0" = some 4 ∧
    PL011.offsetOf PL011.pl011_layout "uartfr" = some 6 ∧
    PL011.offsetOf PL011.pl011_layout "reserved1" = some 7 ∧
    PL011.wordsOf PL011.pl011_layout "reserved1" = some 1 ∧
    PL011.offsetOf PL011.pl011_layout "uartilpr" = some 8 ∧
    PL011.offsetOf PL011.pl011_layout "uartibrd" = some 9 ∧
    PL011.offsetOf PL011.pl011_layout "uartfbrd" = some 10 ∧
    PL011.offsetOf PL011.pl011_layout "uartlcr_h" = some 11 ∧
    PL011.offsetOf PL011.pl011_layout "uartcr" = some 12 ∧
    PL011.offsetOf PL011.pl011_layout "uartifls" = some 13 ∧
    PL011.offsetOf PL011.pl011_layout "uartimsc" = some 14 ∧
    PL011.offsetOf PL011.pl011_layout "uartris" = some 15 ∧
    PL011.offsetOf PL011.pl011_layout "uartmis" = some 16 ∧
    PL011.offsetOf PL011.pl011_layout "uarticr" = some 17 ∧
    PL011.offsetOf PL011.pl011_layout "uartdmacr" = some 18 ∧
    PL011.offsetOf PL011.pl011_layout "reserved2" = some 19 ∧
    PL011.wordsOf PL011.pl011_layout "reserved2" = some 997 ∧
    PL011.offsetOf PL011.pl011_layout "uartperiphid0" = some 1016 ∧
    PL011.offsetOf PL011.pl011_layout "uartperiphid1" = some 1017 ∧
    PL011.offsetOf PL011.pl011_layout "uartperiphid2" = some 1018 ∧
    PL011.offsetOf PL011.pl011_layout "uartperiphid3" = some 1019 ∧
    PL011.offsetOf PL011.pl011_layout "uartpcellid0" = some 1020 ∧
    PL011.offsetOf PL011.pl011_layout "uartpcellid1" = some 1021 ∧
    PL011.offsetOf PL011.pl011_layout "uartpcellid2" = some 1022 ∧
    PL011.offsetOf PL011.pl011_layout "uartpcellid3" = some 1023 ∧
    PL011.modeOf PL011.pl011_layout "uartfr" = some (some .ro) ∧
    PL011.modeOf PL011.pl011_layout "uartris" = some (some .ro) ∧
    PL011.modeOf PL011.pl011_layout "uartmis" = some (some .ro) ∧
    PL011.modeOf PL011.pl011_layout "uartperiphid0" = some (some .ro) ∧
    PL011.modeOf PL011.pl011_layout "uartperiphid1" = some (some .ro) ∧
    PL011.modeOf PL011.pl011_layout "uartperiphid2" = some (some .ro) ∧
    PL011.modeOf PL011.pl011_layout "uartperiphid3" = some (some .ro) ∧
    PL011.modeOf PL011.pl011_layout "uartpcellid0" = some (some .ro) ∧
    PL011.modeOf PL011.pl011_layout "uartpcellid1" = some (some .ro) ∧
    PL011.modeOf PL011.pl011_layout "uartpcellid2" = some (some .ro) ∧
    PL011.modeOf PL011.pl011_layout "uartpcellid3" = some (some .ro) ∧
    PL011.modeOf PL011.pl011_layout "uarticr" = some (some .wo) ∧
    PL011.Mode.writable .ro = false ∧
    PL011.Mode.readable .wo = false := by
  repeat' apply And.intro
  all_goals rfl

/-- C2: `has_incoming_data` is true exactly when bit 4 (RX-FIFO-empty)
of the flag register is zero, and `is_writeable` is true exactly when
bit 5 (TX-FIFO-full) of the flag register is zero; both depend on the
flag register alone (two states agreeing on `uartfr` get the same
answers), modify nothing (they are pure functions of the state) and
always return a Boolean. -/
theorem PL011.status_flag_queries (r : PL011.Regs) :
    (PL011.has_incoming_data r = true ↔ r.uartfr / 2 ^ 4 % 2 = 0) ∧
    (PL011.is_writeable r = true ↔ r.uartfr / 2 ^ 5 % 2 = 0) ∧
    (∀ s : PL011.Regs, s.uartfr = r.uartfr →
      PL011.has_incoming_data s = PL011.has_incoming_data r ∧
      PL011.is_writeable s = PL011.is_writeable r) := by
  refine ⟨?_, ?_, ?_⟩
  · have h := PL011.land_two_pow_eq_zero_iff r.uartfr 4
    simpa [PL011.has_incoming_data] using h
  · have h := PL011.land_two_pow_eq_zero_iff r.uartfr 5
    simpa [PL011.is_writeable] using h
  · intro s hs
    exact ⟨by simp [PL011.has_incoming_data, hs],
           by simp [PL011.is_writeable, hs]⟩

/-- C2 witness: at the all-zero flag register both queries hold, and
the characterisations are checked concretely. -/
theorem PL011.status_flag_queries_witness :
    (PL011.has_incoming_data PL011.Regs.zero = true ↔
      PL011.Regs.zero.uartfr / 2 ^ 4 % 2 = 0) ∧
    (PL011.is_writeable PL011.Regs.zero = true ↔
      PL011.Regs.zero.uartfr / 2 ^ 5 % 2 = 0) ∧
    (∀ s : PL011.Regs, s.uartfr = PL011.Regs.zero.uartfr →
      PL011.has_incoming_data s = PL011.has_incoming_data PL011.Regs.zero ∧
      PL011.is_writeable s = PL011.is_writeable PL011.Regs.zero) :=
  PL011.status_flag_queries PL011.Regs.zero

/-- C3: `read_byte` spins calling `has_incoming_data` until it returns
true (one flag-register read per poll), then reads the data register
exactly once and returns its low 8 bits (the data-register value modulo
256); when the hardware signals data available at poll `k` within the
fuel it terminates with that value, and its access trace contains no
write, so it changes no register. -/
theorem PL011.read_byte_spec (env : Nat → PL011.Regs) (fuel k : Nat)
    (hk : k < fuel)
    (hbefore : ∀ j, j < k → PL011.has_incoming_data (env j) = false)
    (hready : PL011.has_incoming_data (env k) = true) :
    PL011.read_byte env fuel 0 =
      some ((env (k + 1)).uartdr % 256,
        List.replicate (k + 1) (PL011.Access.read .uartfr) ++
          [PL011.Access.read .uartdr],
        k + 2) ∧
    (List.replicate (k + 1) (PL011.Access.read .uartfr) ++
      [PL011.Access.read .uartdr]).filter PL011.Access.isWrite = [] ∧
    (List.replicate (k + 1) (PL011.Access.read .uartfr) ++
      [PL011.Access.read .uartdr]).count (PL011.Access.read .uartdr) = 1 ∧
    ∀ r : PL011.Regs,
      PL011.applyTrace r
        (List.replicate (k + 1) (PL011.Access.read .uartfr) ++
          [PL011.Access.read .uartdr]) = r := by
  have h := PL011.read_byte_eq env k fuel 0 hk
    (fun j hj => by simpa using hbefore j hj)
    (by simpa using hready)
  refine ⟨?_, ?_, ?_, ?_⟩
  · rw [h, PL011.land_ff_eq_mod]
    norm_num
  · rw [List.filter_append, PL011.filter_isWrite_replicate_read]
    rfl
  · rw [List.count_append, PL011.count_dr_replicate_fr]
    rfl
  · intro r
    rw [PL011.applyTrace_append, PL011.applyTrace_replicate_read]
    rfl

/-- C3 witness: an environment whose flag register reports
RX-FIFO-empty on the first poll and data available on the second, with
`0x341` in the data register; `read_byte` returns `0x41` after two
polls and a single data read, and the trace is write-free. -/
theorem PL011.read_byte_spec_witness :
    PL011.read_byte
      (fun i => if i = 0 then { PL011.Regs.zero with uartfr := 0x10 }
                else { PL011.Regs.zero with uartdr := 0x341 }) 2 0 =
      some (0x41,
        List.replicate 2 (PL011.Access.read .uartfr) ++
          [PL011.Access.read .uartdr],
        3) ∧
    (List.replicate 2 (PL011.Access.read .uartfr) ++
      [PL011.Access.read .uartdr]).filter PL011.Access.isWrite = [] ∧
    (List.replicate 2 (PL011.Access.read .uartfr) ++
      [PL011.Access.read .uartdr]).count (PL011.Access.read .uartdr) = 1 ∧
    ∀ r : PL011.Regs,
      PL011.applyTrace r
        (List.replicate 2 (PL011.Access.read .uartfr) ++
          [PL011.Access.read .uartdr]) = r := by
  exact PL011.read_byte_spec
    (fun i => if i = 0 then { PL011.Regs.zero with uartfr := 0x10 }
              else { PL011.Regs.zero with uartdr := 0x341 }) 2 1
    (by omega)
    (fun j hj => by
      have hj0 : j = 0 := by omega
      subst hj0
      rfl)
    rfl

/-- C4: `write_byte` spins calling `is_writeable` until it returns true
(one flag-register read per poll), then writes exactly the byte `b`
(zero-extended, so the written 32-bit value is `b` itself) to the data
register; applying its access trace to any register state sets `uartdr`
to `b` and leaves every other register unchanged. -/
theorem PL011.write_byte_spec (env : Nat → PL011.Regs) (b fuel k : Nat)
    (_hb : b < 256) (hk : k < fuel)
    (hbefore : ∀ j, j < k → PL011.is_writeable (env j) = false)
    (hready : PL011.is_writeable (env k) = true) :
    PL011.write_byte env b fuel 0 =
      some (List.replicate (k + 1) (PL011.Access.read .uartfr) ++
        [PL011.Access.write .uartdr b], k + 1) ∧
    ∀ r : PL011.Regs,
      PL011.applyTrace r
        (List.replicate (k + 1) (PL011.Access.read .uartfr) ++
          [PL011.Access.write .uartdr b]) = { r with uartdr := b } := by
  have h := PL011.write_byte_eq env b k fuel 0 hk
    (fun j hj => by simpa using hbefore j hj)
    (by simpa using hready)
  refine ⟨?_, ?_⟩
  · rw [h]
    norm_num
  · intro r
    rw [PL011.applyTrace_append, PL011.applyTrace_replicate_read]
    rfl

/-- C4 witness: from an all-zero register block (TX-FIFO-full clear),
`write_byte 0x41` succeeds on the first poll, and applying its trace to
that block stores `0x41` in the data register and changes nothing
else. -/
theorem PL011.write_byte_spec_witness :
    PL011.write_byte (fun _ => PL011.Regs.zero) 0x41 1 0 =
      some (List.replicate 1 (PL011.Access.read .uartfr) ++
        [PL011.Access.write .uartdr 0x41], 1) ∧
    ∀ r : PL011.Regs,
      PL011.applyTrace r
        (List.replicate 1 (PL011.Access.read .uartfr) ++
          [PL011.Access.write .uartdr 0x41]) = { r with uartdr := 0x41 } := by
  exact PL011.write_byte_spec (fun _ => PL011.Regs.zero) 0x41 1 0
    (by omega) (by omega) (fun j hj => by omega) rfl

/-- C5: each non-blocking I/O operation fails exactly when its flag
condition fails and succeeds whenever it holds — `serial::Read::read`
returns the data register's low 8 bits as `Ok` when
`has_incoming_data` is true and `WouldBlock` otherwise, and
`serial::Write::write` and `flush` return `Ok` when `is_writeable` is
true and `WouldBlock` otherwise; the `if` characterisations are total,
so no other failure condition exists. -/
theorem PL011.serial_result_iff_flag (r : PL011.Regs) (b : Nat) :
    (PL011.serial_read r).1 =
      (if PL011.has_incoming_data r then Except.ok (r.uartdr % 256)
       else Except.error PL011.NbError.wouldBlock) ∧
    (PL011.serial_flush r).1 =
      (if PL011.is_writeable r then Except.ok ()
       else Except.error PL011.NbError.wouldBlock) ∧
    (PL011.serial_write r b).1 =
      (if PL011.is_writeable r then Except.ok ()
       else Except.error PL011.NbError.wouldBlock) := by
  refine ⟨?_, ?_, ?_⟩
  · by_cases h : PL011.has_incoming_data r <;>
      simp [PL011.serial_read, h, PL011.land_ff_eq_mod]
  · by_cases h : PL011.is_writeable r <;> simp [PL011.serial_flush, h]
  · by_cases h : PL011.is_writeable r <;>
      simp [PL011.serial_write, PL011.serial_flush, h]

/-- C6: writing a byte sequence through the string output path
(`write_str`, which feeds each byte to the blocking `nb::block!`
write) equals the same number of sequential `write_byte` calls in
order: the two agree as total functions (including non-termination),
`write_str` succeeds whenever the `write_byte` sequence terminates,
and consequently both induce the same final register state and the
same ordered sub-trace of data-register writes. -/
theorem PL011.write_str_equiv_write_bytes (env : Nat → PL011.Regs)
    (fuel : Nat) (bs : List Nat) (i : Nat) :
    PL011.write_str env fuel bs i =
      (PL011.write_bytes env fuel bs i).map (fun x => (true, x.1, x.2)) ∧
    (PL011.write_str env fuel bs i).map
        (fun x => fun r => PL011.applyTrace r x.2.1) =
      (PL011.write_bytes env fuel bs i).map
        (fun x => fun r => PL011.applyTrace r x.1) ∧
    (PL011.write_str env fuel bs i).map
        (fun x => x.2.1.filter PL011.Access.isWrite) =
      (PL011.write_bytes env fuel bs i).map
        (fun x => x.1.filter PL011.Access.isWrite) := by
  refine ⟨PL011.write_str_eq env fuel bs i, ?_, ?_⟩ <;>
    rw [PL011.write_str_eq env fuel bs i] <;>
    cases PL011.write_bytes env fuel bs i <;> rfl

/-- C7: on a loopback-modelled peripheral — a written data value stays
readable and the data-available flag is set — `write_byte b` followed
by `read_byte` returns `b` unchanged for every byte value `b < 256`. -/
theorem PL011.loopback_round_trip (r : PL011.Regs) (b : Nat)
    (hb : b < 256) (hw : PL011.is_writeable r = true) :
    ∃ tr : List PL011.Access,
      PL011.write_byte (fun _ => r) b 1 0 = some (tr, 1) ∧
      PL011.read_byte (fun _ => tr.foldl PL011.loopbackApply r) 1 0 =
        some (b, [PL011.Access.read .uartfr, PL011.Access.read .uartdr], 2) := by
  refine ⟨[PL011.Access.read .uartfr, PL011.Access.write .uartdr b], ?_, ?_⟩
  · simp [PL011.write_byte, hw]
  · have hs : List.foldl PL011.loopbackApply r
        [PL011.Access.read .uartfr, PL011.Access.write .uartdr b] =
        { r with uartdr := b, uartfr := r.uartfr &&& 0xFFFFFFEF } := rfl
    rw [hs]
    have hmask : ((0xFFFFFFEF : Nat) &&& 0x10) = 0 := rfl
    have hfr : r.uartfr &&& 0xFFFFFFEF &&& 0x10 = 0 := by
      rw [Nat.land_assoc, hmask, Nat.and_zero]
    have hin : PL011.has_incoming_data
        { r with uartdr := b, uartfr := r.uartfr &&& 0xFFFFFFEF } = true := by
      simp [PL011.has_incoming_data, hfr]
    simp [PL011.read_byte, hin, PL011.land_ff_eq_mod, Nat.mod_eq_of_lt hb]

/-- C7 witness: starting from the all-zero register block, writing the
byte `0xA5` and reading it back over the loopback model returns
`0xA5`. -/
theorem PL011.loopback_round_trip_witness :
    ∃ tr : List PL011.Access,
      PL011.write_byte (fun _ => PL011.Regs.zero) 0xA5 1 0 = some (tr, 1) ∧
      PL011.read_byte (fun _ => tr.foldl PL011.loopbackApply PL011.Regs.zero) 1 0 =
        some (0xA5, [PL011.Access.read .uartfr, PL011.Access.read .uartdr], 2) := by
  exact PL011.loopback_round_trip PL011.Regs.zero 0xA5 (by omega) rfl

/-- C8: `new(address)` aborts (`unwrap` of `as_mut`, modelled as
`none`) exactly when the address is null; for every non-null address
it returns a driver bound to exactly that address, and construction
performs no register access (its access trace is empty). -/
theorem PL011.new_aborts_iff_null (addr : Nat) :
    ((PL011.new addr).1 = none ↔ addr = 0) ∧
    (addr ≠ 0 → (PL011.new addr).1 = some ⟨addr⟩) ∧
    (PL011.new addr).2 = [] := by
  by_cases h : addr = 0 <;> simp [PL011.new, PL011.ptr_as_mut, h]

/-- C8 witness: at the concrete non-null address `0x3F201000` the
constructor returns a driver bound to that address with an empty
access trace, and does not abort. -/
theorem PL011.new_aborts_iff_null_witness :
    ((PL011.new 0x3F201000).1 = none ↔ (0x3F201000 : Nat) = 0) ∧
    ((0x3F201000 : Nat) ≠ 0 → (PL011.new 0x3F201000).1 = some ⟨0x3F201000⟩) ∧
    (PL011.new 0x3F201000).2 = [] := by
  exact PL011.new_aborts_iff_null 0x3F201000

/-- C9: `read_bytes` fills the buffer one byte per pending FIFO byte
and stops as soon as the FIFO is exhausted or the buffer is full,
returning the count actually read: the buffer keeps its length (no
write past the end), the count is `min (pending) (capacity)`, for a
FIFO holding `k <` buffer-length bytes it returns exactly `k`, fills
the first `k` cells with the FIFO contents and leaves the rest
untouched, and on an empty FIFO it returns 0 with the buffer
unchanged. -/
theorem PL011.read_bytes_spec (fifo buf : List Nat) :
    (PL011.read_bytes fifo buf).1.length = buf.length ∧
    (PL011.read_bytes fifo buf).2 = min fifo.length buf.length ∧
    (fifo.length < buf.length →
      (PL011.read_bytes fifo buf).2 = fifo.length ∧
      (PL011.read_bytes fifo buf).1.take fifo.length = fifo ∧
      (PL011.read_bytes fifo buf).1.drop fifo.length =
        buf.drop fifo.length) ∧
    (fifo = [] → PL011.read_bytes fifo buf = (buf, 0)) := by
  refine ⟨PL011.read_bytes_length fifo buf,
    PL011.read_bytes_count fifo buf, ?_, ?_⟩
  · intro h
    refine ⟨?_, PL011.read_bytes_take fifo buf (by omega),
      PL011.read_bytes_drop fifo buf⟩
    rw [PL011.read_bytes_count fifo buf]
    omega
  · intro h
    subst h
    cases buf <;> rfl

/-- C9 witness: a FIFO holding the two bytes `3, 7` read into a
five-cell buffer yields a count of 2, the prefix `3, 7`, and the last
three cells untouched. -/
theorem PL011.read_bytes_spec_witness :
    (PL011.read_bytes [3, 7] [0, 0, 0, 0, 0]).1.length =
      ([0, 0, 0, 0, 0] : List Nat).length ∧
    (PL011.read_bytes [3, 7] [0, 0, 0, 0, 0]).2 =
      min ([3, 7] : List Nat).length ([0, 0, 0, 0, 0] : List Nat).length ∧
    (([3, 7] : List Nat).length < ([0, 0, 0, 0, 0] : List Nat).length →
      (PL011.read_bytes [3, 7] [0, 0, 0, 0, 0]).2 =
        ([3, 7] : List Nat).length ∧
      (PL011.read_bytes [3, 7] [0, 0, 0, 0, 0]).1.take
        ([3, 7] : List Nat).length = [3, 7] ∧
      (PL011.read_bytes [3, 7] [0, 0, 0, 0, 0]).1.drop
        ([3, 7] : List Nat).length =
        ([0, 0, 0, 0, 0] : List Nat).drop ([3, 7] : List Nat).length) ∧
    (([3, 7] : List Nat) = [] →
      PL011.read_bytes [3, 7] [0, 0, 0, 0, 0] = ([0, 0, 0, 0, 0], 0)) := by
  exact PL011.read_bytes_spec [3, 7] [0, 0, 0, 0, 0]

/-- C10: every error any I/O operation returns is `WouldBlock` — the
driver's `Error` value (`NbError.other`) is never produced by read,
write or flush — and a failing non-blocking write is atomic: when
`is_writeable` is false, `serial::Write::write` returns before
touching the data register, its trace being the lone flag read, which
leaves every register unchanged; consequently the blocking retry loop
only ever exits with `Ok` and `write_str` never reports a formatting
error when each per-byte wait terminates. -/
theorem PL011.errors_would_block_and_write_atomic (r : PL011.Regs)
    (b : Nat) (env : Nat → PL011.Regs) (fuel i : Nat) :
    (∀ e, (PL011.serial_read r).1 = .error e →
      e = PL011.NbError.wouldBlock) ∧
    (∀ e, (PL011.serial_flush r).1 = .error e →
      e = PL011.NbError.wouldBlock) ∧
    (∀ e, (PL011.serial_write r b).1 = .error e →
      e = PL011.NbError.wouldBlock) ∧
    (PL011.is_writeable r = false →
      (PL011.serial_write r b).2 = [PL011.Access.read .uartfr] ∧
      PL011.applyTrace r (PL011.serial_write r b).2 = r) ∧
    (∀ res tr j, PL011.block_write env b fuel i = some (res, tr, j) →
      res = Except.ok ()) ∧
    (∀ bs ok tr j, PL011.write_str env fuel bs i = some (ok, tr, j) →
      ok = true) := by
  refine ⟨?_, ?_, ?_, ?_, ?_, ?_⟩
  · intro e he
    by_cases h : PL011.has_incoming_data r <;>
      simp [PL011.serial_read, h] at he
    exact he.symm
  · intro e he
    by_cases h : PL011.is_writeable r <;>
      simp [PL011.serial_flush, h] at he
    exact he.symm
  · intro e he
    by_cases h : PL011.is_writeable r <;>
      simp [PL011.serial_write, PL011.serial_flush, h] at he
    exact he.symm
  · intro h
    have ht : (PL011.serial_write r b).2 = [PL011.Access.read .uartfr] := by
      simp [PL011.serial_write, PL011.serial_flush, h]
    exact ⟨ht, by rw [ht]; rfl⟩
  · intro res tr j hsome
    rw [PL011.block_write_eq] at hsome
    cases h : PL011.write_byte env b fuel i with
    | none => rw [h] at hsome; simp at hsome
    | some x =>
      rw [h] at hsome
      simp at hsome
      exact hsome.1.symm
  · intro bs ok tr j hsome
    rw [PL011.write_str_eq] at hsome
    cases h : PL011.write_bytes env fuel bs i with
    | none => rw [h] at hsome; simp at hsome
    | some x =>
      rw [h] at hsome
      simp at hsome
      exact hsome.1

/-- C10 witness: with both FIFO flags set (`uartfr = 0x30`, so neither
readable nor writeable) the non-blocking operations only ever yield
`WouldBlock`, the failing write's trace is the lone flag read leaving
the state unchanged, and the blocking paths only exit with success. -/
theorem PL011.errors_would_block_and_write_atomic_witness :
    (∀ e, (PL011.serial_read { PL011.Regs.zero with uartfr := 0x30 }).1 =
      .error e → e = PL011.NbError.wouldBlock) ∧
    (∀ e, (PL011.serial_flush { PL011.Regs.zero with uartfr := 0x30 }).1 =
      .error e → e = PL011.NbError.wouldBlock) ∧
    (∀ e, (PL011.serial_write { PL011.Regs.zero with uartfr := 0x30 } 7).1 =
      .error e → e = PL011.NbError.wouldBlock) ∧
    (PL011.is_writeable { PL011.Regs.zero with uartfr := 0x30 } = false →
      (PL011.serial_write { PL011.Regs.zero with uartfr := 0x30 } 7).2 =
        [PL011.Access.read .uartfr] ∧
      PL011.applyTrace { PL011.Regs.zero with uartfr := 0x30 }
        (PL011.serial_write { PL011.Regs.zero with uartfr := 0x30 } 7).2 =
        { PL011.Regs.zero with uartfr := 0x30 }) ∧
    (∀ res tr j, PL011.block_write (fun _ => PL011.Regs.zero) 7 1 0 =
      some (res, tr, j) → res = Except.ok ()) ∧
    (∀ bs ok tr j, PL011.write_str (fun _ => PL011.Regs.zero) 1 bs 0 =
      some (ok, tr, j) → ok = true) := by
  exact PL011.errors_would_block_and_write_atomic
    { PL011.Regs.zero with uartfr := 0x30 } 7 (fun _ => PL011.Regs.zero) 1 0
